import Mathlib

set_option maxRecDepth 8000

namespace FabricGen

/-- Calendar timestamp at microsecond precision, modelling the Python
`datetime` values produced by `fake.date_time_between` in `generator.py`. -/
structure DateTime where
  year : Nat
  month : Nat
  day : Nat
  hour : Nat
  minute : Nat
  second : Nat
  microsecond : Nat
deriving DecidableEq

/-- Module-level identifier counters of `generator.py` (lines 39-41):
`customer_id_counter`, `order_id_counter`, `payment_id_counter`, each
initialized to 1. -/
structure GenState where
  customer_id_counter : Int
  order_id_counter : Int
  payment_id_counter : Int
deriving DecidableEq

/-- Counter state at process start: all three counters equal 1. -/
def initState : GenState := ⟨1, 1, 1⟩

/-- Errors raised inside the generator functions; `valueError` models the
Python `ValueError` that `random.randint` raises on an empty range. -/
inductive GenError where
  | valueError
deriving DecidableEq

/-- Model of `random.randint(a, b)`: a uniform integer in `[a, b]`, the draw
being supplied by the oracle value `g`; raises `ValueError` when `b < a`
(empty range), exactly as Python does. -/
def randint (g : Nat) (a b : Int) : Except GenError Int :=
  if b < a then .error .valueError
  else .ok (a + ((g % (b - a + 1).toNat : Nat) : Int))

/-- Model of `random.choice(xs)` on a nonempty list: selects the element at
an index determined by the external draw `g`. -/
def choice (xs : List String) (g : Nat) : String :=
  xs.getD (g % xs.length) ""

/-- Order status population of `generate_orders` (line 206). -/
def statuses : List String :=
  ["pending", "processing", "shipped", "delivered", "cancelled"]

/-- Payment method population of `generate_payments` (line 225). -/
def payment_methods : List String :=
  ["credit_card", "debit_card", "paypal", "bank_transfer", "pix"]

/-- Payment status population of `generate_payments` (line 226). -/
def payment_statuses : List String :=
  ["pending", "completed", "failed", "refunded"]

/-- Customer row `(ID, FIRST_NAME, LAST_NAME)`. -/
abbrev Customer := Int × String × String

/-- Order row `(ID, USER_ID, ORDER_DATE, STATUS)`. -/
abbrev Order := Int × Int × DateTime × String

/-- Payment row `(ID, ORDERID, PAYMENTMETHOD, STATUS, AMOUNT, CREATED)`.
The amount produced by `round(random.uniform(10.0, 5000.0), 2)` is an
external floating-point draw; it is injected as an oracle value of type
`ℚ` and never interpreted by the model. -/
abbrev Payment := Int × Int × String × String × ℚ × DateTime

/-- Loop of `generate_customers` (lines 190-197): each iteration appends
`(customer_id_counter, fake.first_name(), fake.last_name())` and then
increments the counter. `fn`, `ln` are the external Faker draws indexed by
the iteration number `j`; `n` counts the remaining iterations; `ctr` is the
current value of the global counter. -/
def genCustomersLoop (fn ln : Nat → String) : Nat → Nat → Int → List Customer × Int
  | _, 0, ctr => ([], ctr)
  | j, n + 1, ctr =>
    let rest := genCustomersLoop fn ln (j + 1) n (ctr + 1)
    ((ctr, fn j, ln j) :: rest.1, rest.2)

/-- Model of `generate_customers(count)` (lines 185-199): `for _ in
range(count)` runs `count.toNat` iterations, since Python `range` of a
negative count is empty; the final counter value is written back to the
global state. -/
def generate_customers (fn ln : Nat → String) (count : Int) (st : GenState) :
    List Customer × GenState :=
  let r := genCustomersLoop fn ln 0 count.toNat st.customer_id_counter
  (r.1, { st with customer_id_counter := r.2 })

/-- Loop of `generate_orders` (lines 208-216): each iteration builds
`(order_id_counter, randint(1, max_customer_id), fake.date_time_between(...),
choice(statuses))`, appends it and increments the counter. When `randint`
raises, the exception propagates: rows built so far are discarded, and the
counter keeps the increments that already happened. -/
def genOrdersLoop (ref : Nat → Nat) (dts : Nat → DateTime) (stat : Nat → Nat)
    (maxC : Int) : Nat → Nat → Int → Except GenError (List Order) × Int
  | _, 0, ctr => (.ok [], ctr)
  | j, n + 1, ctr =>
    match randint (ref j) 1 maxC with
    | .error e => (.error e, ctr)
    | .ok cid =>
      let rest := genOrdersLoop ref dts stat maxC (j + 1) n (ctr + 1)
      (rest.1.map (fun l => (ctr, cid, dts j, choice statuses (stat j)) :: l), rest.2)

/-- Model of `generate_orders(count, max_customer_id)` (lines 202-218). -/
def generate_orders (ref : Nat → Nat) (dts : Nat → DateTime) (stat : Nat → Nat)
    (count max_customer_id : Int) (st : GenState) :
    Except GenError (List Order) × GenState :=
  let r := genOrdersLoop ref dts stat max_customer_id 0 count.toNat st.order_id_counter
  (r.1, { st with order_id_counter := r.2 })

/-- Loop of `generate_payments` (lines 228-238), analogous to the order
loop; `amt` injects the external amount draw. -/
def genPaymentsLoop (ref meth stat : Nat → Nat) (amt : Nat → ℚ)
    (dts : Nat → DateTime) (maxO : Int) :
    Nat → Nat → Int → Except GenError (List Payment) × Int
  | _, 0, ctr => (.ok [], ctr)
  | j, n + 1, ctr =>
    match randint (ref j) 1 maxO with
    | .error e => (.error e, ctr)
    | .ok oid =>
      let rest := genPaymentsLoop ref meth stat amt dts maxO (j + 1) n (ctr + 1)
      (rest.1.map (fun l =>
        (ctr, oid, choice payment_methods (meth j), choice payment_statuses (stat j),
          amt j, dts j) :: l), rest.2)

/-- Model of `generate_payments(count, max_order_id)` (lines 221-240). -/
def generate_payments (ref meth stat : Nat → Nat) (amt : Nat → ℚ)
    (dts : Nat → DateTime) (count max_order_id : Int) (st : GenState) :
    Except GenError (List Payment) × GenState :=
  let r := genPaymentsLoop ref meth stat amt dts max_order_id 0 count.toNat
    st.payment_id_counter
  (r.1, { st with payment_id_counter := r.2 })

/-- High-water mark of the customer sequence, as the scheduler computes it at
line 364 of `generator.py`: `customer_id_counter - 1`. -/
def customerHighWaterMark (st : GenState) : Int := st.customer_id_counter - 1

/-- High-water mark of the order sequence (`order_id_counter - 1`,
line 367). -/
def orderHighWaterMark (st : GenState) : Int := st.order_id_counter - 1

/-- High-water mark of the payment sequence (`payment_id_counter - 1`,
line 389). -/
def paymentHighWaterMark (st : GenState) : Int := st.payment_id_counter - 1

/-- Abstract transactional store session, the part of the `pyodbc`
connection the loader uses: `committed` rows are durable, `pending` rows
were inserted by `cursor.execute` inside the currently open transaction
(the connection is not in autocommit mode, so nothing is durable before
`conn.commit()`). -/
structure Store (α : Type) where
  committed : List α
  pending : List α
deriving DecidableEq

/-- Effect of `cursor.execute` of one chunk's bulk INSERT: the chunk joins
the open transaction. -/
def execChunk {α : Type} (s : Store α) (ch : List α) : Store α :=
  { s with pending := s.pending ++ ch }

/-- Effect of `conn.commit()`: pending rows become durable. -/
def Store.commit {α : Type} (s : Store α) : Store α :=
  ⟨s.committed ++ s.pending, []⟩

/-- Effect of `conn.rollback()`: pending rows of the open transaction are
discarded. -/
def Store.rollback {α : Type} (s : Store α) : Store α :=
  ⟨s.committed, []⟩

/-- Python `range(start, stop, step)` for a non-negative step; `step = 0`
is mapped to the empty list (Python raises there, and the loader is only
invoked with the positive configured `CHUNK_SIZE`). -/
def pyRange (start stop step : Nat) : List Nat :=
  if step = 0 then []
  else (List.range ((stop - start + step - 1) / step)).map fun j => start + j * step

/-- Chunk starting at offset `i`: the slice `rows[i : i + c]`. -/
def chunkAt {α : Type} (rows : List α) (c i : Nat) : List α :=
  (rows.drop i).take c

/-- The chunks a `batch_insert_*` call slices its rows into, following
`for i in range(0, total, chunk_size): chunk = rows[i:i + chunk_size]`. -/
def chunksOf {α : Type} (rows : List α) (c : Nat) : List (List α) :=
  (pyRange 0 rows.length c).map (chunkAt rows c)

/-- Observable outcome of one `batch_insert_*` call: final session state,
the chunks submitted via `cursor.execute` (in order), the progress lines
printed, the 1-based index of the failing chunk (`none` on success), and
how many commits and rollbacks were issued. -/
structure LoadResult (α : Type) where
  store : Store α
  submitted : List (List α)
  progress : List (Nat × Nat)
  failedChunk : Option Nat
  commits : Nat
  rollbacks : Nat
deriving DecidableEq

/-- Body of the `batch_insert_*` functions (lines 249-261 and twins):
walk the offsets `is`, submitting each chunk; the store may reject the
`k`-th submitted chunk (1-based), per the oracle `rej`, in which case the
`except` clause rolls the transaction back and re-raises; after the loop a
single `conn.commit()` makes all submitted chunks durable. A progress line
`(min(i + c, total), total)` is printed when `(i + c) % 5000 == 0`. -/
def loadFrom {α : Type} (rej : Nat → Bool) (c total : Nat) (rows : List α) :
    List Nat → Nat → Store α → List (List α) → List (Nat × Nat) → LoadResult α
  | [], _, s, sub, prog => ⟨s.commit, sub, prog, none, 1, 0⟩
  | i :: is, k, s, sub, prog =>
    let ch := chunkAt rows c i
    if rej k then
      ⟨s.rollback, sub ++ [ch], prog, some k, 0, 1⟩
    else
      loadFrom rej c total rows is (k + 1) (execChunk s ch) (sub ++ [ch])
        (if (i + c) % 5000 == 0 then prog ++ [(min (i + c) total, total)] else prog)

/-- Model of `batch_insert_customers` / `batch_insert_orders` /
`batch_insert_payments` (lines 243-267, 270-297, 300-327): the three share
one chunking-and-transaction skeleton, differing only in how a row is
rendered into the VALUES literal, which the chunk/commit behaviour does not
depend on. -/
def batch_insert {α : Type} (rej : Nat → Bool) (chunk_size : Nat) (rows : List α)
    (s₀ : Store α) : LoadResult α :=
  loadFrom rej chunk_size rows.length rows (pyRange 0 rows.length chunk_size) 1 s₀ [] []

/-- Specialization of `batch_insert` to customer rows, keeping the source
name. -/
def batch_insert_customers (rej : Nat → Bool) (chunk_size : Nat)
    (customers : List Customer) (s₀ : Store Customer) : LoadResult Customer :=
  batch_insert rej chunk_size customers s₀

/-- Specialization of `batch_insert` to order rows. -/
def batch_insert_orders (rej : Nat → Bool) (chunk_size : Nat)
    (orders : List Order) (s₀ : Store Order) : LoadResult Order :=
  batch_insert rej chunk_size orders s₀

/-- Specialization of `batch_insert` to payment rows. -/
def batch_insert_payments (rej : Nat → Bool) (chunk_size : Nat)
    (payments : List Payment) (s₀ : Store Payment) : LoadResult Payment :=
  batch_insert rej chunk_size payments s₀

/-- Digit character for a single decimal digit. -/
def digitChar (d : Nat) : Char := Char.ofNat (48 + d)

/-- Numeric value of a decimal digit character. -/
def charVal (ch : Char) : Nat := ch.toNat - 48

/-- Test for a decimal digit character. -/
def isDigitCh (ch : Char) : Bool := 48 ≤ ch.toNat && ch.toNat ≤ 57

/-- Two-digit zero-padded rendering, as `%m %d %H %M %S` produce. -/
def pad2 (n : Nat) : List Char := [digitChar (n / 10 % 10), digitChar (n % 10)]

/-- Four-digit zero-padded rendering, as `%Y` produces for years in
`[1000, 9999]` (the only years the generated timestamps can carry). -/
def pad4 (n : Nat) : List Char :=
  [digitChar (n / 1000 % 10), digitChar (n / 100 % 10),
    digitChar (n / 10 % 10), digitChar (n % 10)]

/-- Character stream of `t.strftime('%Y-%m-%d %H:%M:%S')`, the rendering
used at lines 281 and 311 of `generator.py`. -/
def strftimeChars (t : DateTime) : List Char :=
  pad4 t.year ++ '-' :: (pad2 t.month ++ '-' :: (pad2 t.day ++ ' ' ::
    (pad2 t.hour ++ ':' :: (pad2 t.minute ++ ':' :: pad2 t.second))))

/-- The rendered timestamp literal as a string. -/
def strftimeYmdHMS (t : DateTime) : String := ⟨strftimeChars t⟩

/-- Parse exactly two digit characters. -/
def parseDigit2 : List Char → Option (Nat × List Char)
  | c1 :: c2 :: rest =>
    if isDigitCh c1 && isDigitCh c2 then
      some (charVal c1 * 10 + charVal c2, rest)
    else none
  | _ => none

/-- Parse exactly four digit characters. -/
def parseDigit4 : List Char → Option (Nat × List Char)
  | c1 :: c2 :: c3 :: c4 :: rest =>
    if isDigitCh c1 && isDigitCh c2 && isDigitCh c3 && isDigitCh c4 then
      some (((charVal c1 * 10 + charVal c2) * 10 + charVal c3) * 10 + charVal c4, rest)
    else none
  | _ => none

/-- Consume one expected literal character. -/
def expectCh (c : Char) : List Char → Option (List Char)
  | d :: rest => if d = c then some rest else none
  | [] => none

/-- Model of `datetime.strptime(s, '%Y-%m-%d %H:%M:%S')` on the fixed-width
strings the rendering above emits; fields absent from the format
(microsecond) default to zero, as in Python. -/
def strptimeYmdHMS (s : String) : Option DateTime := do
  let (y, r1) ← parseDigit4 s.data
  let r2 ← expectCh '-' r1
  let (mo, r3) ← parseDigit2 r2
  let r4 ← expectCh '-' r3
  let (d, r5) ← parseDigit2 r4
  let r6 ← expectCh ' ' r5
  let (h, r7) ← parseDigit2 r6
  let r8 ← expectCh ':' r7
  let (mi, r9) ← parseDigit2 r8
  let r10 ← expectCh ':' r9
  let (sec, r11) ← parseDigit2 r10
  if r11 = [] then some ⟨y, mo, d, h, mi, sec, 0⟩ else none

/-- Truncation of a timestamp to whole seconds. -/
def truncateToSecond (t : DateTime) : DateTime := { t with microsecond := 0 }

/-- Outcome of one iteration of the scheduler's `while True` loop, as seen
from outside: the three generate calls and three load calls all succeed
(`ok`), some exception escapes the loop body (`exn`), or a
`KeyboardInterrupt` is observed (`interrupt`). -/
inductive BatchOutcome where
  | ok
  | exn
  | interrupt
deriving DecidableEq

/-- How a `run_generator` invocation ends. -/
inductive ExitKind where
  | normal
  | raised
  | running
deriving DecidableEq

/-- Observable resource behaviour of one `run_generator` invocation:
whether the store session was ever acquired, how many times `conn.close()`
ran, and how the call ended (`running` means the loop is still going after
the modelled number of iterations). -/
structure RunResult where
  sessionAcquired : Bool
  closeCount : Nat
  exit : ExitKind
deriving DecidableEq

/-- The `while True` loop of `run_generator` together with its enclosing
`try/except/finally` (lines 352-413): an `ok` iteration loops again; an
exception is printed and re-raised, after which `finally` closes the
connection; a `KeyboardInterrupt` prints the summary and falls through to
the same `finally`. `bn` is the batch number, `fuel` bounds how many
iterations are examined. -/
def runLoop (batches : Nat → BatchOutcome) : Nat → Nat → RunResult
  | _, 0 => ⟨true, 0, .running⟩
  | bn, fuel + 1 =>
    match batches bn with
    | .ok => runLoop batches (bn + 1) fuel
    | .exn => ⟨true, 1, .raised⟩
    | .interrupt => ⟨true, 1, .normal⟩

/-- Model of `run_generator` (lines 330-413). Crucially, the source calls
`conn = create_connection()` (line 341) and `create_tables_if_not_exist(conn)`
(line 344) before entering the `try` block whose `finally` closes the
connection (lines 352, 411-412): a failure of either happens outside the
scope of that `finally`. -/
def run_generator (connectOk tablesOk : Bool) (batches : Nat → BatchOutcome)
    (fuel : Nat) : RunResult :=
  if ¬ connectOk then ⟨false, 0, .raised⟩
  else if ¬ tablesOk then ⟨true, 0, .raised⟩
  else runLoop batches 1 fuel

/-- One generator call, carrying its own external draw streams. -/
inductive GenCall where
  | customers (fn ln : Nat → String) (count : Int)
  | orders (ref : Nat → Nat) (dts : Nat → DateTime) (stat : Nat → Nat)
      (count maxC : Int)
  | payments (ref meth stat : Nat → Nat) (amt : Nat → ℚ) (dts : Nat → DateTime)
      (count maxO : Int)

/-- State and per-kind rows accumulated while replaying generator calls. -/
structure RunAcc where
  state : GenState
  customers : List Customer
  orders : List Order
  payments : List Payment

/-- Execute one generator call against the global counters; rows of a call
that raises are lost to the caller (the exception propagates), while the
counter state is whatever the call left behind. -/
def applyCall : GenCall → GenState → RunAcc
  | .customers fn ln n, st =>
    let r := generate_customers fn ln n st
    ⟨r.2, r.1, [], []⟩
  | .orders ref dts stat n maxC, st =>
    let r := generate_orders ref dts stat n maxC st
    ⟨r.2, [], (match r.1 with | .ok l => l | .error _ => []), []⟩
  | .payments ref meth stat amt dts n maxO, st =>
    let r := generate_payments ref meth stat amt dts n maxO st
    ⟨r.2, [], [], match r.1 with | .ok l => l | .error _ => []⟩

/-- Replay a sequence of generator calls from a given counter state,
concatenating the rows each kind receives, in call order. -/
def runCalls : List GenCall → GenState → RunAcc
  | [], st => ⟨st, [], [], []⟩
  | call :: rest, st =>
    let r1 := applyCall call st
    let r2 := runCalls rest r1.state
    ⟨r2.state, r1.customers ++ r2.customers, r1.orders ++ r2.orders,
      r1.payments ++ r2.payments⟩

/-- Consecutive integer identifiers `a, a+1, ..., a+n-1`. -/
def idsFrom (a : Int) : Nat → List Int
  | 0 => []
  | n + 1 => a :: idsFrom (a + 1) n

lemma genCustomersLoop_spec (fn ln : Nat → String) :
    ∀ (n j : Nat) (ctr : Int),
      (genCustomersLoop fn ln j n ctr).1.map (fun r => r.1) = idsFrom ctr n ∧
      (genCustomersLoop fn ln j n ctr).1.length = n ∧
      (genCustomersLoop fn ln j n ctr).2 = ctr + n := by
  intro n
  induction n with
  | zero => intro j ctr; simp [genCustomersLoop, idsFrom]
  | succ n ih =>
    intro j ctr
    obtain ⟨h1, h2, h3⟩ := ih (j + 1) (ctr + 1)
    refine ⟨?_, ?_, ?_⟩
    · simp [genCustomersLoop, idsFrom, h1]
    · simp [genCustomersLoop, h2]
    · simp only [genCustomersLoop, h3]
      push_cast
      ring

lemma randint_pos (g : Nat) (b : Int) (hb : 1 ≤ b) :
    randint g 1 b = .ok (1 + ((g % b.toNat : Nat) : Int)) := by
  rw [randint, if_neg (by omega)]
  norm_num

lemma randint_empty (g : Nat) (b : Int) (hb : b < 1) :
    randint g 1 b = .error .valueError := by
  rw [randint, if_pos (by omega)]

lemma genOrdersLoop_ok (ref : Nat → Nat) (dts : Nat → DateTime) (stat : Nat → Nat)
    (maxC : Int) (hmax : 1 ≤ maxC) :
    ∀ (n j : Nat) (ctr : Int), ∃ l,
      (genOrdersLoop ref dts stat maxC j n ctr).1 = .ok l ∧
      l.map (fun r => r.1) = idsFrom ctr n ∧
      l.length = n ∧
      (∀ o ∈ l, 1 ≤ o.2.1 ∧ o.2.1 ≤ maxC) ∧
      (genOrdersLoop ref dts stat maxC j n ctr).2 = ctr + n := by
  intro n
  induction n with
  | zero =>
    intro j ctr
    exact ⟨[], rfl, by simp [idsFrom], rfl, by simp, by simp [genOrdersLoop]⟩
  | succ n ih =>
    intro j ctr
    obtain ⟨l, hok, hids, hlen, hbd, hctr⟩ := ih (j + 1) (ctr + 1)
    have hmod : ref j % maxC.toNat < maxC.toNat := Nat.mod_lt _ (by omega)
    refine ⟨(ctr, 1 + ((ref j % maxC.toNat : Nat) : Int), dts j,
      choice statuses (stat j)) :: l, ?_, ?_, ?_, ?_, ?_⟩
    · simp [genOrdersLoop, randint_pos _ _ hmax, hok, Except.map]
    · simp [hids, idsFrom]
    · simp [genOrdersLoop, randint_pos _ _ hmax, hok, Except.map, hlen]
    · intro o ho
      rcases List.mem_cons.mp ho with h | h
      · subst h
        constructor
        · show (1 : Int) ≤ 1 + ((ref j % maxC.toNat : Nat) : Int)
          omega
        · show 1 + ((ref j % maxC.toNat : Nat) : Int) ≤ maxC
          omega
      · exact hbd o h
    · simp only [genOrdersLoop, randint_pos _ _ hmax, hctr]
      push_cast
      ring

lemma genOrdersLoop_err (ref : Nat → Nat) (dts : Nat → DateTime) (stat : Nat → Nat)
    (maxC : Int) (hmax : maxC < 1) (n j : Nat) (ctr : Int) (hn : 1 ≤ n) :
    genOrdersLoop ref dts stat maxC j n ctr = (.error .valueError, ctr) := by
  cases n with
  | zero => omega
  | succ n => simp [genOrdersLoop, randint_empty _ _ hmax]

lemma genPaymentsLoop_ok (ref meth stat : Nat → Nat) (amt : Nat → ℚ)
    (dts : Nat → DateTime) (maxO : Int) (hmax : 1 ≤ maxO) :
    ∀ (n j : Nat) (ctr : Int), ∃ l,
      (genPaymentsLoop ref meth stat amt dts maxO j n ctr).1 = .ok l ∧
      l.map (fun r => r.1) = idsFrom ctr n ∧
      l.length = n ∧
      (∀ p ∈ l, 1 ≤ p.2.1 ∧ p.2.1 ≤ maxO) ∧
      (genPaymentsLoop ref meth stat amt dts maxO j n ctr).2 = ctr + n := by
  intro n
  induction n with
  | zero =>
    intro j ctr
    exact ⟨[], rfl, by simp [idsFrom], rfl, by simp, by simp [genPaymentsLoop]⟩
  | succ n ih =>
    intro j ctr
    obtain ⟨l, hok, hids, hlen, hbd, hctr⟩ := ih (j + 1) (ctr + 1)
    have hmod : ref j % maxO.toNat < maxO.toNat := Nat.mod_lt _ (by omega)
    refine ⟨(ctr, 1 + ((ref j % maxO.toNat : Nat) : Int),
      choice payment_methods (meth j), choice payment_statuses (stat j),
      amt j, dts j) :: l, ?_, ?_, ?_, ?_, ?_⟩
    · simp [genPaymentsLoop, randint_pos _ _ hmax, hok, Except.map]
    · simp [hids, idsFrom]
    · simp [genPaymentsLoop, randint_pos _ _ hmax, hok, Except.map, hlen]
    · intro p hp
      rcases List.mem_cons.mp hp with h | h
      · subst h
        constructor
        · show (1 : Int) ≤ 1 + ((ref j % maxO.toNat : Nat) : Int)
          omega
        · show 1 + ((ref j % maxO.toNat : Nat) : Int) ≤ maxO
          omega
      · exact hbd p h
    · simp only [genPaymentsLoop, randint_pos _ _ hmax, hctr]
      push_cast
      ring

lemma genPaymentsLoop_err (ref meth stat : Nat → Nat) (amt : Nat → ℚ)
    (dts : Nat → DateTime) (maxO : Int) (hmax : maxO < 1) (n j : Nat) (ctr : Int)
    (hn : 1 ≤ n) :
    genPaymentsLoop ref meth stat amt dts maxO j n ctr = (.error .valueError, ctr) := by
  cases n with
  | zero => omega
  | succ n => simp [genPaymentsLoop, randint_empty _ _ hmax]

/-- C2: every order generated by `generateOrders(count, maxCustomerId)` with
`maxCustomerId ≥ 1` and `count ≥ 0` has `1 ≤ customer_id ≤ maxCustomerId`,
and every payment generated by `generatePayments(count, maxOrderId)` with
`maxOrderId ≥ 1` has `1 ≤ order_id ≤ maxOrderId` — the parent reference is
`random.randint(1, watermark)`, which stays inside the closed range. -/
theorem c2_parent_ref_bounds :
    (∀ (ref : Nat → Nat) (dts : Nat → DateTime) (stat : Nat → Nat)
        (count maxC : Int) (st : GenState) (rows : List Order) (st2 : GenState),
      0 ≤ count → 1 ≤ maxC →
      generate_orders ref dts stat count maxC st = (.ok rows, st2) →
      ∀ o ∈ rows, 1 ≤ o.2.1 ∧ o.2.1 ≤ maxC) ∧
    (∀ (ref meth stat : Nat → Nat) (amt : Nat → ℚ) (dts : Nat → DateTime)
        (count maxO : Int) (st : GenState) (rows : List Payment) (st2 : GenState),
      0 ≤ count → 1 ≤ maxO →
      generate_payments ref meth stat amt dts count maxO st = (.ok rows, st2) →
      ∀ p ∈ rows, 1 ≤ p.2.1 ∧ p.2.1 ≤ maxO) := by
  constructor
  · intro ref dts stat count maxC st rows st2 _ hmax heq o ho
    obtain ⟨l, hok, _, _, hbd, _⟩ :=
      genOrdersLoop_ok ref dts stat maxC hmax count.toNat 0 st.order_id_counter
    have h1 : (genOrdersLoop ref dts stat maxC 0 count.toNat st.order_id_counter).1
        = .ok rows := by
      have := congrArg Prod.fst heq
      simpa [generate_orders] using this
    rw [hok] at h1
    injection h1 with h1
    subst h1
    exact hbd o ho
  · intro ref meth stat amt dts count maxO st rows st2 _ hmax heq p hp
    obtain ⟨l, hok, _, _, hbd, _⟩ :=
      genPaymentsLoop_ok ref meth stat amt dts maxO hmax count.toNat 0
        st.payment_id_counter
    have h1 : (genPaymentsLoop ref meth stat amt dts maxO 0 count.toNat
        st.payment_id_counter).1 = .ok rows := by
      have := congrArg Prod.fst heq
      simpa [generate_payments] using this
    rw [hok] at h1
    injection h1 with h1
    subst h1
    exact hbd p hp

/-- Witness for C2 at a concrete input: two orders against a watermark of 3,
drawing customer id 2 for both. -/
theorem c2_parent_ref_bounds_witness :
    (0 : Int) ≤ 2 ∧ (1 : Int) ≤ 3 ∧
    ∀ o ∈ [((1 : Int), (2 : Int), (⟨2025, 1, 1, 0, 0, 0, 0⟩ : DateTime), "pending"),
        ((2 : Int), (2 : Int), (⟨2025, 1, 1, 0, 0, 0, 0⟩ : DateTime), "pending")],
      1 ≤ o.2.1 ∧ o.2.1 ≤ (3 : Int) := by
  refine ⟨by norm_num, by norm_num, ?_⟩
  intro o ho
  exact c2_parent_ref_bounds.1 (fun _ => 7) (fun _ => ⟨2025, 1, 1, 0, 0, 0, 0⟩)
    (fun _ => 0) 2 3 initState
    [((1 : Int), (2 : Int), (⟨2025, 1, 1, 0, 0, 0, 0⟩ : DateTime), "pending"),
      ((2 : Int), (2 : Int), (⟨2025, 1, 1, 0, 0, 0, 0⟩ : DateTime), "pending")]
    ⟨1, 3, 1⟩ (by norm_num) (by norm_num) rfl o ho

/-- C5 (amended): a call of `generateOrders`/`generatePayments` with parent
watermark below 1 and a positive count raises `ValueError` (the model of
`InvalidArgument`), producing no rows and consuming no identifiers; but a
negative `count` does not fail — Python `range(count)` is empty, so the call
returns an empty row list, again consuming no identifiers. -/
theorem c5_invalid_argument_corrected :
    (∀ (ref : Nat → Nat) (dts : Nat → DateTime) (stat : Nat → Nat)
        (count maxC : Int) (st : GenState), maxC < 1 → 1 ≤ count →
      generate_orders ref dts stat count maxC st = (.error .valueError, st)) ∧
    (∀ (ref meth stat : Nat → Nat) (amt : Nat → ℚ) (dts : Nat → DateTime)
        (count maxO : Int) (st : GenState), maxO < 1 → 1 ≤ count →
      generate_payments ref meth stat amt dts count maxO st =
        (.error .valueError, st)) ∧
    (∀ (fn ln : Nat → String) (count : Int) (st : GenState), count < 0 →
      generate_customers fn ln count st = ([], st)) ∧
    (∀ (ref : Nat → Nat) (dts : Nat → DateTime) (stat : Nat → Nat)
        (count maxC : Int) (st : GenState), count < 0 →
      generate_orders ref dts stat count maxC st = (.ok [], st)) ∧
    (∀ (ref meth stat : Nat → Nat) (amt : Nat → ℚ) (dts : Nat → DateTime)
        (count maxO : Int) (st : GenState), count < 0 →
      generate_payments ref meth stat amt dts count maxO st = (.ok [], st)) := by
  refine ⟨?_, ?_, ?_, ?_, ?_⟩
  · intro ref dts stat count maxC st hmax hcount
    have hn : 1 ≤ count.toNat := by omega
    rw [generate_orders, genOrdersLoop_err ref dts stat maxC hmax _ _ _ hn]
  · intro ref meth stat amt dts count maxO st hmax hcount
    have hn : 1 ≤ count.toNat := by omega
    rw [generate_payments, genPaymentsLoop_err ref meth stat amt dts maxO hmax _ _ _ hn]
  · intro fn ln count st hcount
    have hn : count.toNat = 0 := by omega
    rw [generate_customers, hn]
    rfl
  · intro ref dts stat count maxC st hcount
    have hn : count.toNat = 0 := by omega
    rw [generate_orders, hn]
    rfl
  · intro ref meth stat amt dts count maxO st hcount
    have hn : count.toNat = 0 := by omega
    rw [generate_payments, hn]
    rfl

/-- Witness for C5 as amended, at a concrete input. -/
theorem c5_invalid_argument_witness :
    (0 : Int) < 1 ∧ (1 : Int) ≤ 1 ∧
    generate_orders (fun _ => 0) (fun _ => ⟨2025, 1, 1, 0, 0, 0, 0⟩) (fun _ => 0)
      1 0 initState = (.error .valueError, initState) :=
  ⟨by norm_num, le_refl 1,
    c5_invalid_argument_corrected.1 (fun _ => 0)
      (fun _ => ⟨2025, 1, 1, 0, 0, 0, 0⟩) (fun _ => 0) 1 0 initState
      (by norm_num) (le_refl 1)⟩

/-- Counterexample to C5 as stated: `generateOrders(-1, 5)` has a negative
count, yet the call succeeds with an empty row list instead of failing with
`InvalidArgument`. -/
theorem c5_invalid_argument_counterexample :
    (generate_orders (fun _ => 0) (fun _ => ⟨2025, 1, 1, 0, 0, 0, 0⟩) (fun _ => 0)
      (-1) 5 initState).1 = .ok [] :=
  rfl

lemma idsFrom_append (m : Nat) : ∀ (a : Int) (k : Nat),
    idsFrom a m ++ idsFrom (a + (m : Int)) k = idsFrom a (m + k) := by
  induction m with
  | zero => intro a k; simp [idsFrom]
  | succ m ih =>
    intro a k
    have hc : a + ((m + 1 : Nat) : Int) = (a + 1) + (m : Int) := by push_cast; ring
    rw [show (m + 1) + k = (m + k) + 1 from by omega]
    simp only [idsFrom, List.cons_append, hc, ih (a + 1) k]

lemma idsFrom_getLastD (n : Nat) : ∀ (a d : Int),
    (idsFrom a (n + 1)).getLastD d = a + (n : Int) := by
  induction n with
  | zero => intro a d; simp [idsFrom]
  | succ n ih =>
    intro a d
    rw [show n + 1 + 1 = (n + 1) + 1 from rfl, idsFrom, List.getLastD_cons,
      ih (a + 1) a]
    push_cast
    ring

lemma applyCall_spec (call : GenCall) (st : GenState) :
    ((applyCall call st).customers.map (fun r => r.1) =
        idsFrom st.customer_id_counter (applyCall call st).customers.length ∧
      (applyCall call st).state.customer_id_counter =
        st.customer_id_counter + ((applyCall call st).customers.length : Int)) ∧
    ((applyCall call st).orders.map (fun r => r.1) =
        idsFrom st.order_id_counter (applyCall call st).orders.length ∧
      (applyCall call st).state.order_id_counter =
        st.order_id_counter + ((applyCall call st).orders.length : Int)) ∧
    ((applyCall call st).payments.map (fun r => r.1) =
        idsFrom st.payment_id_counter (applyCall call st).payments.length ∧
      (applyCall call st).state.payment_id_counter =
        st.payment_id_counter + ((applyCall call st).payments.length : Int)) := by
  cases call with
  | customers fn ln n =>
    obtain ⟨h1, h2, h3⟩ := genCustomersLoop_spec fn ln n.toNat 0 st.customer_id_counter
    simp only [applyCall, generate_customers, h1, h2, h3]
    simp [idsFrom]
  | orders ref dts stat n maxC =>
    rcases lt_or_le maxC 1 with hmax | hmax
    · rcases Nat.eq_zero_or_pos n.toNat with hn | hn
      · simp only [applyCall, generate_orders, hn, genOrdersLoop]
        simp [idsFrom]
      · have herr := genOrdersLoop_err ref dts stat maxC hmax n.toNat 0
          st.order_id_counter hn
        simp only [applyCall, generate_orders, herr]
        simp [idsFrom]
    · obtain ⟨l, hok, hids, hlen, _, hctr⟩ :=
        genOrdersLoop_ok ref dts stat maxC hmax n.toNat 0 st.order_id_counter
      simp only [applyCall, generate_orders, hok, hctr, hlen]
      simp [idsFrom, hids]
  | payments ref meth stat amt dts n maxO =>
    rcases lt_or_le maxO 1 with hmax | hmax
    · rcases Nat.eq_zero_or_pos n.toNat with hn | hn
      · simp only [applyCall, generate_payments, hn, genPaymentsLoop]
        simp [idsFrom]
      · have herr := genPaymentsLoop_err ref meth stat amt dts maxO hmax n.toNat 0
          st.payment_id_counter hn
        simp only [applyCall, generate_payments, herr]
        simp [idsFrom]
    · obtain ⟨l, hok, hids, hlen, _, hctr⟩ :=
        genPaymentsLoop_ok ref meth stat amt dts maxO hmax n.toNat 0
          st.payment_id_counter
      simp only [applyCall, generate_payments, hok, hctr, hlen]
      simp [idsFrom, hids]

lemma runCalls_spec (calls : List GenCall) : ∀ st : GenState,
    ((runCalls calls st).customers.map (fun r => r.1) =
        idsFrom st.customer_id_counter (runCalls calls st).customers.length ∧
      (runCalls calls st).state.customer_id_counter =
        st.customer_id_counter + ((runCalls calls st).customers.length : Int)) ∧
    ((runCalls calls st).orders.map (fun r => r.1) =
        idsFrom st.order_id_counter (runCalls calls st).orders.length ∧
      (runCalls calls st).state.order_id_counter =
        st.order_id_counter + ((runCalls calls st).orders.length : Int)) ∧
    ((runCalls calls st).payments.map (fun r => r.1) =
        idsFrom st.payment_id_counter (runCalls calls st).payments.length ∧
      (runCalls calls st).state.payment_id_counter =
        st.payment_id_counter + ((runCalls calls st).payments.length : Int)) := by
  induction calls with
  | nil =>
    intro st
    refine ⟨⟨by simp [runCalls, idsFrom], by simp [runCalls]⟩,
      ⟨by simp [runCalls, idsFrom], by simp [runCalls]⟩,
      ⟨by simp [runCalls, idsFrom], by simp [runCalls]⟩⟩
  | cons call rest ih =>
    intro st
    obtain ⟨⟨a1, a2⟩, ⟨b1, b2⟩, ⟨c1, c2⟩⟩ := applyCall_spec call st
    obtain ⟨⟨d1, d2⟩, ⟨e1, e2⟩, ⟨f1, f2⟩⟩ := ih (applyCall call st).state
    simp only [runCalls]
    refine ⟨⟨?_, ?_⟩, ⟨?_, ?_⟩, ⟨?_, ?_⟩⟩
    · rw [List.map_append, a1, d1, List.length_append, a2]
      exact idsFrom_append _ _ _
    · rw [d2, a2, List.length_append]
      push_cast
      ring
    · rw [List.map_append, b1, e1, List.length_append, b2]
      exact idsFrom_append _ _ _
    · rw [e2, b2, List.length_append]
      push_cast
      ring
    · rw [List.map_append, c1, f1, List.length_append, c2]
      exact idsFrom_append _ _ _
    · rw [f2, c2, List.length_append]
      push_cast
      ring

/-- C3: replaying any sequence of generator calls from a fresh process state,
each entity kind's issued identifiers are exactly `1, 2, 3, ...` (strictly
increasing, gap-free, starting at 1), the high-water mark
(`counter - 1`) equals the last issued identifier (0 if none was issued),
and a call of one kind leaves the counters of the other two kinds
unchanged. -/
theorem c3_id_sequences :
    (∀ calls : List GenCall,
      ((runCalls calls initState).customers.map (fun r => r.1) =
          idsFrom 1 (runCalls calls initState).customers.length ∧
        customerHighWaterMark (runCalls calls initState).state =
          ((runCalls calls initState).customers.map (fun r => r.1)).getLastD 0) ∧
      ((runCalls calls initState).orders.map (fun r => r.1) =
          idsFrom 1 (runCalls calls initState).orders.length ∧
        orderHighWaterMark (runCalls calls initState).state =
          ((runCalls calls initState).orders.map (fun r => r.1)).getLastD 0) ∧
      ((runCalls calls initState).payments.map (fun r => r.1) =
          idsFrom 1 (runCalls calls initState).payments.length ∧
        paymentHighWaterMark (runCalls calls initState).state =
          ((runCalls calls initState).payments.map (fun r => r.1)).getLastD 0)) ∧
    (∀ (fn ln : Nat → String) (n : Int) (st : GenState),
      (applyCall (.customers fn ln n) st).state.order_id_counter =
          st.order_id_counter ∧
        (applyCall (.customers fn ln n) st).state.payment_id_counter =
          st.payment_id_counter) ∧
    (∀ (ref : Nat → Nat) (dts : Nat → DateTime) (stat : Nat → Nat)
        (n maxC : Int) (st : GenState),
      (applyCall (.orders ref dts stat n maxC) st).state.customer_id_counter =
          st.customer_id_counter ∧
        (applyCall (.orders ref dts stat n maxC) st).state.payment_id_counter =
          st.payment_id_counter) ∧
    (∀ (ref meth stat : Nat → Nat) (amt : Nat → ℚ) (dts : Nat → DateTime)
        (n maxO : Int) (st : GenState),
      (applyCall (.payments ref meth stat amt dts n maxO) st).state.customer_id_counter =
          st.customer_id_counter ∧
        (applyCall (.payments ref meth stat amt dts n maxO) st).state.order_id_counter =
          st.order_id_counter) := by
  refine ⟨?_, fun fn ln n st => ⟨rfl, rfl⟩, fun ref dts stat n maxC st => ⟨rfl, rfl⟩,
    fun ref meth stat amt dts n maxO st => ⟨rfl, rfl⟩⟩
  intro calls
  obtain ⟨⟨a1, a2⟩, ⟨b1, b2⟩, ⟨c1, c2⟩⟩ := runCalls_spec calls initState
  refine ⟨⟨a1, ?_⟩, ⟨b1, ?_⟩, ⟨c1, ?_⟩⟩
  · rw [customerHighWaterMark, a2, a1]
    cases hn : (runCalls calls initState).customers.length with
    | zero => simp [idsFrom, initState]
    | succ n =>
      rw [idsFrom_getLastD]
      show initState.customer_id_counter + ((n + 1 : Nat) : Int) - 1 = 1 + (n : Int)
      simp [initState]
      ring
  · rw [orderHighWaterMark, b2, b1]
    cases hn : (runCalls calls initState).orders.length with
    | zero => simp [idsFrom, initState]
    | succ n =>
      rw [idsFrom_getLastD]
      show initState.order_id_counter + ((n + 1 : Nat) : Int) - 1 = 1 + (n : Int)
      simp [initState]
      ring
  · rw [paymentHighWaterMark, c2, c1]
    cases hn : (runCalls calls initState).payments.length with
    | zero => simp [idsFrom, initState]
    | succ n =>
      rw [idsFrom_getLastD]
      show initState.payment_id_counter + ((n + 1 : Nat) : Int) - 1 = 1 + (n : Int)
      simp [initState]
      ring

lemma loadFrom_ok {α : Type} (rej : Nat → Bool) (hrej : ∀ k, rej k = false)
    (c total : Nat) (rows : List α) :
    ∀ (is : List Nat) (k : Nat) (s : Store α) (sub : List (List α))
      (prog : List (Nat × Nat)),
      loadFrom rej c total rows is k s sub prog =
        ⟨⟨s.committed ++ (s.pending ++ (is.map (chunkAt rows c)).flatten), []⟩,
          sub ++ is.map (chunkAt rows c),
          prog ++ (is.filter (fun i => (i + c) % 5000 == 0)).map
            (fun i => (min (i + c) total, total)),
          none, 1, 0⟩ := by
  intro is
  induction is with
  | nil =>
    intro k s sub prog
    simp [loadFrom, Store.commit]
  | cons i is ih =>
    intro k s sub prog
    simp only [loadFrom, hrej, Bool.false_eq_true, if_false]
    rw [ih]
    by_cases hco : ((i + c) % 5000 == 0) = true
    · simp [execChunk, hco, List.filter_cons, List.append_assoc]
    · simp [execChunk, hco, List.filter_cons, List.append_assoc]

lemma loadFrom_fail {α : Type} (rej : Nat → Bool) (c total : Nat) (rows : List α) :
    ∀ (is : List Nat) (j k : Nat) (s : Store α) (sub : List (List α))
      (prog : List (Nat × Nat)),
      j < is.length →
      (∀ q, q < j → rej (k + q) = false) →
      rej (k + j) = true →
      (loadFrom rej c total rows is k s sub prog).store = ⟨s.committed, []⟩ ∧
      (loadFrom rej c total rows is k s sub prog).submitted =
        sub ++ (is.take (j + 1)).map (chunkAt rows c) ∧
      (loadFrom rej c total rows is k s sub prog).failedChunk = some (k + j) ∧
      (loadFrom rej c total rows is k s sub prog).commits = 0 ∧
      (loadFrom rej c total rows is k s sub prog).rollbacks = 1 := by
  intro is
  induction is with
  | nil =>
    intro j k s sub prog hj
    simp at hj
  | cons i is ih =>
    intro j k s sub prog hj hq hfail
    cases j with
    | zero =>
      rw [Nat.add_zero] at hfail
      refine ⟨?_, ?_, ?_, ?_, ?_⟩ <;> simp [loadFrom, hfail, Store.rollback]
    | succ j =>
      have h0 : rej k = false := by simpa using hq 0 (Nat.succ_pos j)
      have hj2 : j < is.length := by simpa using hj
      have hq2 : ∀ q, q < j → rej (k + 1 + q) = false := by
        intro q hqlt
        have := hq (q + 1) (by omega)
        rwa [show k + (q + 1) = k + 1 + q from by omega] at this
      have hf2 : rej (k + 1 + j) = true := by
        rwa [show k + (j + 1) = k + 1 + j from by omega] at hfail
      obtain ⟨g1, g2, g3, g4, g5⟩ := ih j (k + 1) (execChunk s (chunkAt rows c i))
        (sub ++ [chunkAt rows c i])
        (if (i + c) % 5000 == 0 then prog ++ [(min (i + c) total, total)] else prog)
        hj2 hq2 hf2
      have hstep : loadFrom rej c total rows (i :: is) k s sub prog =
          loadFrom rej c total rows is (k + 1) (execChunk s (chunkAt rows c i))
            (sub ++ [chunkAt rows c i])
            (if (i + c) % 5000 == 0 then prog ++ [(min (i + c) total, total)]
              else prog) := by
        simp only [loadFrom, h0, Bool.false_eq_true, if_false]
      refine ⟨?_, ?_, ?_, ?_, ?_⟩
      · rw [hstep, g1]
        rfl
      · rw [hstep, g2]
        simp [List.take_succ_cons, List.append_assoc]
      · rw [hstep, g3]
        simp only [Option.some.injEq]
        omega
      · rw [hstep, g4]
      · rw [hstep, g5]

/-- C1 (amended): when the store rejects the `k`-th chunk, the single
transaction of the whole call is rolled back — the chunks executed before
the failure are NOT persisted (the lone `conn.commit()` comes only after
the loop), the store keeps exactly what it had before the call — chunks
after `k` are never attempted, each of chunks `1..k` was submitted exactly
once (no retry), and the failure propagates as the failing chunk index. -/
theorem c1_chunk_failure_rollback {α : Type} (rej : Nat → Bool) (c : Nat)
    (rows : List α) (s₀ : Store α) (k : Nat) (hc : 1 ≤ c) (hk1 : 1 ≤ k)
    (hk2 : k ≤ (chunksOf rows c).length)
    (hbefore : ∀ q, 1 ≤ q → q < k → rej q = false) (hfail : rej k = true) :
    (batch_insert rej c rows s₀).failedChunk = some k ∧
    (batch_insert rej c rows s₀).store.committed = s₀.committed ∧
    (batch_insert rej c rows s₀).store.pending = [] ∧
    (batch_insert rej c rows s₀).submitted = (chunksOf rows c).take k ∧
    (batch_insert rej c rows s₀).commits = 0 ∧
    (batch_insert rej c rows s₀).rollbacks = 1 := by
  have hlen : (chunksOf rows c).length = (pyRange 0 rows.length c).length := by
    simp [chunksOf]
  obtain ⟨g1, g2, g3, g4, g5⟩ := loadFrom_fail rej c rows.length rows
    (pyRange 0 rows.length c) (k - 1) 1 s₀ [] []
    (by rw [hlen] at hk2; omega)
    (fun q hqlt => hbefore (1 + q) (by omega) (by omega))
    (by rwa [show 1 + (k - 1) = k from by omega])
  rw [show k - 1 + 1 = k from by omega] at g2
  rw [show 1 + (k - 1) = k from by omega] at g3
  simp only [batch_insert]
  refine ⟨g3, ?_, ?_, ?_, g4, g5⟩
  · rw [g1]
  · rw [g1]
  · rw [g2]
    simp [chunksOf, List.map_take]

/-- Witness for C1 as amended: 50 rows, chunk size 20, store rejects the
2nd chunk. -/
theorem c1_chunk_failure_rollback_witness :
    ((1 ≤ 20 ∧ 1 ≤ 2) ∧ ((2 : Nat) == 2) = true) ∧
    (batch_insert (fun k => k == 2) 20 (List.range 50)
        (⟨[], []⟩ : Store Nat)).failedChunk = some 2 ∧
    (batch_insert (fun k => k == 2) 20 (List.range 50)
        (⟨[], []⟩ : Store Nat)).store.committed = [] ∧
    (batch_insert (fun k => k == 2) 20 (List.range 50)
        (⟨[], []⟩ : Store Nat)).store.pending = [] ∧
    (batch_insert (fun k => k == 2) 20 (List.range 50)
        (⟨[], []⟩ : Store Nat)).submitted = (chunksOf (List.range 50) 20).take 2 ∧
    (batch_insert (fun k => k == 2) 20 (List.range 50)
        (⟨[], []⟩ : Store Nat)).commits = 0 ∧
    (batch_insert (fun k => k == 2) 20 (List.range 50)
        (⟨[], []⟩ : Store Nat)).rollbacks = 1 := by
  refine ⟨⟨⟨by omega, by omega⟩, rfl⟩, ?_⟩
  exact c1_chunk_failure_rollback (fun k => k == 2) 20 (List.range 50) ⟨[], []⟩ 2
    (by omega) (by omega) (by decide)
    (fun q hq1 hq2 => by interval_cases q; rfl) rfl

/-- Counterexample to C1 as stated: with 50 rows, chunk size 20 and the
store rejecting chunk 2, chunk 1 completed before the failure, yet nothing
at all is durably persisted — the rollback discards chunk 1's rows as well,
because the only commit would have come after the loop. -/
theorem c1_chunk_failure_counterexample :
    (batch_insert (fun k => k == 2) 20 (List.range 50)
        (⟨[], []⟩ : Store Nat)).failedChunk = some 2 ∧
    (batch_insert (fun k => k == 2) 20 (List.range 50)
        (⟨[], []⟩ : Store Nat)).store.committed = [] ∧
    (0 : Nat) ∈ (chunksOf (List.range 50) 20).getD 0 [] ∧
    ¬ (0 : Nat) ∈ (batch_insert (fun k => k == 2) 20 (List.range 50)
        (⟨[], []⟩ : Store Nat)).store.committed := by
  decide

lemma le_ceil_mul (R c : Nat) (hc : 1 ≤ c) : R ≤ ((R + c - 1) / c) * c := by
  have h1 := Nat.div_add_mod (R + c - 1) c
  have h2 : (R + c - 1) % c < c := Nat.mod_lt _ (by omega)
  rw [mul_comm]
  generalize hq : (R + c - 1) / c = q at h1 ⊢
  generalize hr : (R + c - 1) % c = r at h1 h2
  generalize hm : c * q = m at h1 ⊢
  omega

lemma mid_chunk_full (R c i : Nat) (hc : 1 ≤ c) (hi : i + 1 < (R + c - 1) / c) :
    i * c + c ≤ R := by
  have h1 : ((R + c - 1) / c) * c ≤ R + c - 1 := Nat.div_mul_le_self _ _
  have h2 : (i + 2) * c ≤ ((R + c - 1) / c) * c :=
    Nat.mul_le_mul_right _ (by omega)
  have h3 : i * c + c + c ≤ R + c - 1 := by
    calc i * c + c + c = (i + 2) * c := by ring
    _ ≤ ((R + c - 1) / c) * c := h2
    _ ≤ R + c - 1 := h1
  generalize hm : i * c = m at h3 ⊢
  omega

lemma chunksOf_eq {α : Type} (rows : List α) (c : Nat) (hc : 1 ≤ c) :
    chunksOf rows c =
      (List.range ((rows.length + c - 1) / c)).map
        (fun j => chunkAt rows c (j * c)) := by
  simp only [chunksOf, pyRange, if_neg (show ¬ c = 0 by omega), List.map_map,
    Nat.sub_zero]
  congr 1
  funext j
  simp [Function.comp]

lemma chunksOf_join_aux {α : Type} (c : Nat) (hc : 1 ≤ c) :
    ∀ (n : Nat) (rows : List α), rows.length ≤ n * c →
      ((List.range n).map (fun j => chunkAt rows c (j * c))).flatten = rows := by
  intro n
  induction n with
  | zero =>
    intro rows h
    simp only [Nat.zero_mul, Nat.le_zero] at h
    rw [List.length_eq_zero.mp h]
    simp
  | succ n ih =>
    intro rows h
    rw [List.range_succ_eq_map, List.map_cons, List.map_map]
    rw [show ((fun j => chunkAt rows c (j * c)) ∘ Nat.succ)
        = (fun j => chunkAt (rows.drop c) c (j * c)) from funext fun j => by
      simp [chunkAt, List.drop_drop, Nat.succ_mul, Nat.add_comm]]
    have hlen2 : (rows.drop c).length ≤ n * c := by
      rw [List.length_drop]
      rw [Nat.succ_mul] at h
      generalize hm : n * c = m at h ⊢
      omega
    rw [List.flatten_cons, ih (rows.drop c) hlen2]
    simp [chunkAt]

/-- C4: a load call on `R` rows with chunk size `C ≥ 1` submits exactly
`ceil(R / C)` contiguous chunks, each of size at most `C`, every chunk
other than the last of size exactly `C`, and their in-order concatenation
is the original row sequence. -/
theorem c4_chunking_shape {α : Type} (rej : Nat → Bool) (hrej : ∀ k, rej k = false)
    (c : Nat) (hc : 1 ≤ c) (rows : List α) (s₀ : Store α) :
    (batch_insert rej c rows s₀).submitted.length = (rows.length + c - 1) / c ∧
    (∀ ch ∈ (batch_insert rej c rows s₀).submitted, ch.length ≤ c) ∧
    (batch_insert rej c rows s₀).submitted.flatten = rows ∧
    (∀ i : Nat, i + 1 < (batch_insert rej c rows s₀).submitted.length →
      ((batch_insert rej c rows s₀).submitted.getD i []).length = c) := by
  have hsub : (batch_insert rej c rows s₀).submitted = chunksOf rows c := by
    simp only [batch_insert]
    rw [loadFrom_ok rej hrej]
    simp [chunksOf]
  rw [hsub]
  refine ⟨?_, ?_, ?_, ?_⟩
  · rw [chunksOf_eq rows c hc]
    simp
  · intro ch hch
    obtain ⟨i, hi, hEq⟩ := List.mem_map.mp hch
    rw [← hEq]
    simp only [chunkAt]
    exact le_trans (List.length_take_le _ _) (le_refl c)
  · rw [chunksOf_eq rows c hc]
    exact chunksOf_join_aux c hc _ rows (le_ceil_mul rows.length c hc)
  · intro i hi
    rw [chunksOf_eq rows c hc] at hi ⊢
    rw [List.length_map, List.length_range] at hi
    have hget : ((List.range ((rows.length + c - 1) / c)).map
        (fun j => chunkAt rows c (j * c))).getD i [] = chunkAt rows c (i * c) := by
      rw [List.getD_eq_getElem?_getD, List.getElem?_map, List.getElem?_range (by omega)]
      rfl
    rw [hget]
    simp only [chunkAt, List.length_take, List.length_drop]
    have hfull := mid_chunk_full rows.length c i hc hi
    generalize hm : i * c = m at hfull ⊢
    omega

/-- Witness for C4: 50 rows in chunks of 20 give 3 chunks of sizes
20, 20, 10 whose concatenation is the original sequence. -/
theorem c4_chunking_shape_witness :
    (1 ≤ 20) ∧
    (batch_insert (fun _ => false) 20 (List.range 50)
        (⟨[], []⟩ : Store Nat)).submitted.length = ((List.range 50).length + 20 - 1) / 20 ∧
    (batch_insert (fun _ => false) 20 (List.range 50)
        (⟨[], []⟩ : Store Nat)).submitted.flatten = List.range 50 := by
  have h := c4_chunking_shape (fun _ => false) (fun _ => rfl) 20 (by omega)
    (List.range 50) ⟨[], []⟩
  exact ⟨by omega, h.1, h.2.2.1⟩

/-- C7 (amended): during a successful load, a progress notification
carrying `(min(i + chunkSize, totalRows), totalRows)` is emitted after
exactly those chunks whose start offset `i` has `(i + chunkSize) % 5000 == 0`
— when `chunkSize` divides 5000 this is one notification per 5000 nominal
rows, but for other chunk sizes a 5000-row boundary can pass without any
notification. -/
theorem c7_progress_cadence_corrected {α : Type} (rej : Nat → Bool)
    (hrej : ∀ k, rej k = false) (c : Nat) (hc : 1 ≤ c) (rows : List α)
    (s₀ : Store α) :
    (batch_insert rej c rows s₀).progress =
      ((pyRange 0 rows.length c).filter (fun i => (i + c) % 5000 == 0)).map
        (fun i => (min (i + c) rows.length, rows.length)) := by
  simp only [batch_insert]
  rw [loadFrom_ok rej hrej]
  simp

/-- Witness for C7 as amended, at chunk size 1000 over 2500 rows. -/
theorem c7_progress_cadence_witness :
    (1 ≤ 1000) ∧
    (batch_insert (fun _ => false) 1000 (List.range 2500)
        (⟨[], []⟩ : Store Nat)).progress =
      ((pyRange 0 (List.range 2500).length 1000).filter
          (fun i => (i + 1000) % 5000 == 0)).map
        (fun i => (min (i + 1000) (List.range 2500).length,
          (List.range 2500).length)) :=
  ⟨by omega, c7_progress_cadence_corrected (fun _ => false) (fun _ => rfl) 1000
    (by omega) (List.range 2500) ⟨[], []⟩⟩

/-- Counterexample to C7 as stated: loading 5001 rows with chunk size 5001
succeeds and absorbs more than 5000 rows, so a notification for the
5000-row mark would be due, but the `(i + chunk_size) % 5000 == 0` test
never fires — no progress notification at all is emitted. -/
theorem c7_progress_cadence_counterexample :
    (batch_insert (fun _ => false) 5001 (List.range 5001)
        (⟨[], []⟩ : Store Nat)).progress = [] ∧
    (batch_insert (fun _ => false) 5001 (List.range 5001)
        (⟨[], []⟩ : Store Nat)).failedChunk = none ∧
    5000 ≤ (List.range 5001).length := by
  have h := loadFrom_ok (α := Nat) (fun _ => false) (fun _ => rfl) 5001
    (List.range 5001).length (List.range 5001)
    (pyRange 0 (List.range 5001).length 5001) 1 ⟨[], []⟩ [] []
  refine ⟨?_, ?_, by simp⟩
  · show (loadFrom (fun _ => false) 5001 (List.range 5001).length (List.range 5001)
      (pyRange 0 (List.range 5001).length 5001) 1 ⟨[], []⟩ [] []).progress = []
    rw [h]
    have hpr : pyRange 0 (List.range 5001).length 5001 = [0] := by
      simp [pyRange, List.length_range]
      rfl
    rw [hpr]
    rfl
  · show (loadFrom (fun _ => false) 5001 (List.range 5001).length (List.range 5001)
      (pyRange 0 (List.range 5001).length 5001) 1 ⟨[], []⟩ [] []).failedChunk = none
    rw [h]

/-- C10: a load call on an empty row sequence succeeds, submits zero
chunks, emits no progress notification, performs exactly one commit and no
rollback, and the single commit merely flushes whatever transaction state
the session already had. -/
theorem c10_empty_load {α : Type} (rej : Nat → Bool) (c : Nat) (hc : 1 ≤ c)
    (s₀ : Store α) :
    batch_insert rej c ([] : List α) s₀ =
      ⟨⟨s₀.committed ++ s₀.pending, []⟩, [], [], none, 1, 0⟩ := by
  simp only [batch_insert]
  have hpr : pyRange 0 (List.length ([] : List α)) c = [] := by
    simp [pyRange, Nat.div_eq_of_lt (show c - 1 < c by omega)]
  rw [hpr]
  simp [loadFrom, Store.commit]

/-- Witness for C10 at chunk size 1000 on an empty customer batch. -/
theorem c10_empty_load_witness :
    (1 ≤ 1000) ∧
    batch_insert (fun _ => false) 1000 ([] : List Customer) ⟨[], []⟩ =
      ⟨⟨[], []⟩, [], [], none, 1, 0⟩ :=
  ⟨by omega, c10_empty_load (fun _ => false) 1000 (by omega) ⟨[], []⟩⟩

lemma charVal_digitChar (d : Nat) (hd : d < 10) : charVal (digitChar d) = d := by
  interval_cases d <;> decide

lemma isDigitCh_digitChar (d : Nat) (hd : d < 10) :
    isDigitCh (digitChar d) = true := by
  interval_cases d <;> decide

lemma parseDigit2_pad2 (n : Nat) (hn : n < 100) (rest : List Char) :
    parseDigit2 (pad2 n ++ rest) = some (n, rest) := by
  have h1 : n / 10 % 10 < 10 := Nat.mod_lt _ (by omega)
  have h2 : n % 10 < 10 := Nat.mod_lt _ (by omega)
  simp only [pad2, List.cons_append, List.nil_append, parseDigit2,
    isDigitCh_digitChar _ h1, isDigitCh_digitChar _ h2, Bool.and_self, if_true,
    charVal_digitChar _ h1, charVal_digitChar _ h2]
  have : n / 10 % 10 * 10 + n % 10 = n := by omega
  rw [this]

lemma parseDigit4_pad4 (n : Nat) (hn : n < 10000) (rest : List Char) :
    parseDigit4 (pad4 n ++ rest) = some (n, rest) := by
  have h1 : n / 1000 % 10 < 10 := Nat.mod_lt _ (by omega)
  have h2 : n / 100 % 10 < 10 := Nat.mod_lt _ (by omega)
  have h3 : n / 10 % 10 < 10 := Nat.mod_lt _ (by omega)
  have h4 : n % 10 < 10 := Nat.mod_lt _ (by omega)
  simp only [pad4, List.cons_append, List.nil_append, parseDigit4,
    isDigitCh_digitChar _ h1, isDigitCh_digitChar _ h2, isDigitCh_digitChar _ h3,
    isDigitCh_digitChar _ h4, Bool.and_self, if_true,
    charVal_digitChar _ h1, charVal_digitChar _ h2, charVal_digitChar _ h3,
    charVal_digitChar _ h4]
  have : ((n / 1000 % 10 * 10 + n / 100 % 10) * 10 + n / 10 % 10) * 10 + n % 10
      = n := by omega
  rw [this]

lemma expectCh_cons (c : Char) (rest : List Char) :
    expectCh c (c :: rest) = some rest := by
  simp [expectCh]

/-- C9: rendering any of the program's timestamps with the
`%Y-%m-%d %H:%M:%S` format and re-parsing the rendered string with the same
format recovers the timestamp truncated to whole seconds (the microsecond
field, absent from the format, comes back as zero). -/
theorem c9_timestamp_roundtrip (t : DateTime)
    (hy1 : 1000 ≤ t.year) (hy2 : t.year ≤ 9999)
    (hmo1 : 1 ≤ t.month) (hmo2 : t.month ≤ 12)
    (hd1 : 1 ≤ t.day) (hd2 : t.day ≤ 31)
    (hh : t.hour ≤ 23) (hmi : t.minute ≤ 59) (hs : t.second ≤ 59) :
    strptimeYmdHMS (strftimeYmdHMS t) = some (truncateToSecond t) := by
  obtain ⟨y, mo, d, h, mi, s, ms⟩ := t
  simp only at hy1 hy2 hmo1 hmo2 hd1 hd2 hh hmi hs
  simp only [strftimeYmdHMS, strptimeYmdHMS, strftimeChars, truncateToSecond]
  simp only [parseDigit4_pad4 y (by omega : y < 10000), Option.some_bind,
    Option.bind_eq_bind, expectCh_cons,
    parseDigit2_pad2 mo (by omega : mo < 100),
    parseDigit2_pad2 d (by omega : d < 100),
    parseDigit2_pad2 h (by omega : h < 100),
    parseDigit2_pad2 mi (by omega : mi < 100)]
  rw [show pad2 s = pad2 s ++ ([] : List Char) from (List.append_nil _).symm,
    parseDigit2_pad2 s (by omega : s < 100)]
  simp

/-- Witness for C9 at a concrete timestamp carrying microseconds. -/
theorem c9_timestamp_roundtrip_witness :
    ((1000 ≤ 2025 ∧ 2025 ≤ 9999) ∧ (1 ≤ 10 ∧ 10 ≤ 12) ∧ (1 ≤ 12 ∧ 12 ≤ 31) ∧
      13 ≤ 23 ∧ 45 ≤ 59 ∧ 59 ≤ 59) ∧
    strptimeYmdHMS (strftimeYmdHMS ⟨2025, 10, 12, 13, 45, 59, 123456⟩) =
      some ⟨2025, 10, 12, 13, 45, 59, 0⟩ :=
  ⟨⟨⟨by omega, by omega⟩, ⟨by omega, by omega⟩, ⟨by omega, by omega⟩,
      by omega, by omega, by omega⟩,
    c9_timestamp_roundtrip ⟨2025, 10, 12, 13, 45, 59, 123456⟩ (by decide)
      (by decide) (by decide) (by decide) (by decide) (by decide) (by decide)
      (by decide) (by decide)⟩

lemma runLoop_exit (batches : Nat → BatchOutcome) :
    ∀ (fuel bn : Nat), (runLoop batches bn fuel).exit ≠ .running →
      (runLoop batches bn fuel).closeCount = 1 ∧
      (runLoop batches bn fuel).sessionAcquired = true := by
  intro fuel
  induction fuel with
  | zero =>
    intro bn h
    simp [runLoop] at h
  | succ fuel ih =>
    intro bn h
    cases hb : batches bn with
    | ok =>
      simp only [runLoop, hb] at h ⊢
      exact ih (bn + 1) h
    | exn => simp [runLoop, hb]
    | interrupt => simp [runLoop, hb]

/-- C6 (corrected): when connection and schema check both succeed, the
session is released exactly once on every exit of the main loop (operator
interrupt or a failure inside a batch cycle); but when the startup schema
check fails, the run exits by exception with the session acquired and never
released — `create_tables_if_not_exist(conn)` runs before the `try` whose
`finally` closes the connection; if connecting itself fails, no session was
acquired. -/
theorem c6_session_release_corrected (batches : Nat → BatchOutcome) (fuel : Nat)
    (tablesOk : Bool)
    (h : (run_generator true true batches fuel).exit ≠ .running) :
    (run_generator true true batches fuel).closeCount = 1 ∧
    run_generator true false batches fuel = ⟨true, 0, .raised⟩ ∧
    run_generator false tablesOk batches fuel = ⟨false, 0, .raised⟩ := by
  refine ⟨?_, by simp [run_generator], by simp [run_generator]⟩
  have hx := runLoop_exit batches fuel 1 (by simpa [run_generator] using h)
  simpa [run_generator] using hx.1

/-- Witness for C6 as amended: a run whose third batch is interrupted. -/
theorem c6_session_release_witness :
    (run_generator true true (fun b => if b == 3 then .interrupt else .ok) 10).exit
        ≠ ExitKind.running ∧
    (run_generator true true (fun b => if b == 3 then .interrupt else .ok)
        10).closeCount = 1 ∧
    run_generator true false (fun b => if b == 3 then .interrupt else .ok) 10 =
      ⟨true, 0, .raised⟩ :=
  ⟨by decide,
    (c6_session_release_corrected (fun b => if b == 3 then .interrupt else .ok) 10
      true (by decide)).1,
    (c6_session_release_corrected (fun b => if b == 3 then .interrupt else .ok) 10
      true (by decide)).2.1⟩

/-- Counterexample to C6 as stated: if the startup schema check fails, the
run exits with the session acquired but `conn.close()` never runs — zero
releases, not exactly one. -/
theorem c6_session_release_counterexample :
    (run_generator true false (fun _ => .ok) 5).sessionAcquired = true ∧
    (run_generator true false (fun _ => .ok) 5).exit = ExitKind.raised ∧
    (run_generator true false (fun _ => .ok) 5).closeCount = 0 := by
  decide

end FabricGen
